import Mathlib

/-!
Verification of the Star Wars catalog project (FastAPI backend + React
frontend).  The frontend TypeScript sources (`web/src/services/api.ts`,
`web/src/components/Pagination.tsx`, `web/src/pages/Characters.tsx`,
`web/src/types`) are embedded directly.  The backend access layer
(cache, retry policy, correlation resolver, query engine) is not part of
the shipped sources, so those components are modelled from the design
specification, as marked in each doc comment.
-/

namespace StarWars

/-! ## Frontend data model (from web/src/types)

`SearchParams` from the types module: every field is optional in
TypeScript, so every field is an `Option` here.  Numeric fields
(`page`, `film_id`) are `Int` (JS numbers at integral values). -/

structure SearchParams where
  page : Option Int := none
  search : Option String := none
  sort_by : Option String := none
  order : Option String := none
  gender : Option String := none
  eye_color : Option String := none
  hair_color : Option String := none
  skin_color : Option String := none
  film_id : Option Int := none
  climate : Option String := none
  terrain : Option String := none
  starship_class : Option String := none
  manufacturer : Option String := none
  director : Option String := none
  producer : Option String := none
deriving DecidableEq

/-- JS truthiness of an optional string: `undefined` and `""` are falsy. -/
def truthyStr : Option String → Bool
  | none => false
  | some s => s ≠ ""

/-- JS truthiness of an optional number: `undefined` and `0` are falsy. -/
def truthyNum : Option Int → Bool
  | none => false
  | some n => n ≠ 0

/-- One conditional `query.set(name, value)` call on a string-valued
field of `SearchParams` (`if (params.f) query.set(name, params.f)`). -/
def qsetStr (name : String) (v : Option String) : List (String × String) :=
  match v with
  | some s => if s ≠ "" then [(name, s)] else []
  | none => []

/-- One conditional `query.set(name, value.toString())` call on a
number-valued field of `SearchParams`. -/
def qsetNum (name : String) (v : Option Int) : List (String × String) :=
  match v with
  | some n => if n ≠ 0 then [(name, toString n)] else []
  | none => []

/-- `SwapiApi.buildQueryString` (web/src/services/api.ts, lines 54-83),
as the ordered list of `name=value` pairs inserted into the
`URLSearchParams` object.  All keys are distinct, so the serialized
query string is exactly this list. -/
def buildQueryString (params : SearchParams) : List (String × String) :=
  qsetNum "page" params.page ++
  qsetStr "search" params.search ++
  qsetStr "sort_by" params.sort_by ++
  qsetStr "order" params.order ++
  qsetStr "gender" params.gender ++
  qsetStr "eye_color" params.eye_color ++
  qsetStr "hair_color" params.hair_color ++
  qsetStr "skin_color" params.skin_color ++
  qsetNum "film_id" params.film_id ++
  qsetStr "climate" params.climate ++
  qsetStr "terrain" params.terrain ++
  qsetStr "starship_class" params.starship_class ++
  qsetStr "manufacturer" params.manufacturer ++
  qsetStr "director" params.director ++
  qsetStr "producer" params.producer

/-- The parameter names emitted by `buildQueryString`. -/
def emittedNames (params : SearchParams) : List String :=
  (buildQueryString params).map Prod.fst

/-- The recognized query configuration option names (spec section 6). -/
def recognizedParamNames : List String :=
  ["page", "search", "sort_by", "order",
   "gender", "eye_color", "hair_color", "skin_color", "film_id",
   "climate", "terrain", "starship_class", "manufacturer",
   "director", "producer"]

/-- Initial `useState<SearchParams>` value of the Characters list page
(web/src/pages/Characters.tsx, lines 105-115). -/
def charactersInitialParams : SearchParams :=
  { page := some 1, search := some "", sort_by := some "name",
    order := some "asc", gender := some "", eye_color := some "",
    hair_color := some "", skin_color := some "", film_id := none }

/-- Initial `useState<SearchParams>` value of the Films list page. -/
def filmsInitialParams : SearchParams :=
  { page := some 1, search := some "", sort_by := some "episode_id",
    order := some "asc" }

/-- Initial `useState<SearchParams>` value of the Starships list page. -/
def starshipsInitialParams : SearchParams :=
  { page := some 1, search := some "", sort_by := some "name",
    order := some "asc", starship_class := some "",
    manufacturer := some "", film_id := none }

/-! ## Characters page handlers (web/src/pages/Characters.tsx) -/

/-- `handleSearch`: `setParams(prev => ({ ...prev, search: query, page: 1 }))`. -/
def handleSearch (query : String) (prev : SearchParams) : SearchParams :=
  { prev with search := some query, page := some 1 }

/-- `handlePageChange`: `setParams(prev => ({ ...prev, page }))`. -/
def handlePageChange (page : Int) (prev : SearchParams) : SearchParams :=
  { prev with page := some page }

/-- The filter fields `handleFilterChange` is invoked with by the
Characters page (the film select and the four `FilterSelect` controls). -/
inductive FilterField where
  | film_id
  | gender
  | eye_color
  | hair_color
  | skin_color
deriving DecidableEq

/-- JS `Number(value)` on the decimal film-id strings the page passes. -/
def jsNumber (s : String) : Int :=
  (s.toInt?).getD 0

/-- `handleFilterChange(field, value)` of the Characters page:
`film_id` becomes `value ? Number(value) : undefined`, any other filter
field becomes `value || undefined`, and `page` is reset to 1. -/
def handleFilterChange (field : FilterField) (value : String)
    (prev : SearchParams) : SearchParams :=
  match field with
  | .film_id =>
      { prev with film_id := if value ≠ "" then some (jsNumber value) else none,
                  page := some 1 }
  | .gender =>
      { prev with gender := if value ≠ "" then some value else none,
                  page := some 1 }
  | .eye_color =>
      { prev with eye_color := if value ≠ "" then some value else none,
                  page := some 1 }
  | .hair_color =>
      { prev with hair_color := if value ≠ "" then some value else none,
                  page := some 1 }
  | .skin_color =>
      { prev with skin_color := if value ≠ "" then some value else none,
                  page := some 1 }

/-- The value held by a filter field of a `SearchParams` (string filters
on the left, the numeric `film_id` on the right). -/
def filterFieldVal (field : FilterField) (p : SearchParams) :
    Option String ⊕ Option Int :=
  match field with
  | .film_id => Sum.inr p.film_id
  | .gender => Sum.inl p.gender
  | .eye_color => Sum.inl p.eye_color
  | .hair_color => Sum.inl p.hair_color
  | .skin_color => Sum.inl p.skin_color

/-- Copy the named filter field from `src` into `dst`, leaving the
other fields of `dst` alone: used to state that a handler changed no
field other than the named one. -/
def copyFilterField (field : FilterField) (src dst : SearchParams) :
    SearchParams :=
  match field with
  | .film_id => { dst with film_id := src.film_id }
  | .gender => { dst with gender := src.gender }
  | .eye_color => { dst with eye_color := src.eye_color }
  | .hair_color => { dst with hair_color := src.hair_color }
  | .skin_color => { dst with skin_color := src.skin_color }

/-- The value the claim expects the named filter field to take after
`handleFilterChange(field, value)`: the value, or cleared when empty. -/
def filterFieldUpdated (field : FilterField) (value : String) :
    Option String ⊕ Option Int :=
  match field with
  | .film_id => Sum.inr (if value ≠ "" then some (jsNumber value) else none)
  | _ => Sum.inl (if value ≠ "" then some value else none)

/-! ## SwapiApi.request (web/src/services/api.ts, lines 28-52) -/

/-- The `{ error, message }` JSON body the backend sends on failure
(`ApiErrorResponse` in web/src/types). -/
structure ErrorBody where
  error : String
  message : String
deriving DecidableEq

/-- The `ApiError` thrown by the frontend API client (web/src/types). -/
structure ApiError where
  status : Int
  errorType : String
  message : String
deriving DecidableEq

/-- An HTTP response as `request` observes it: the `ok` flag, the
numeric status, the parsed JSON payload when `ok`, and the result of
attempting to parse the body as an error record when not `ok`
(`none` models a body that cannot be parsed as JSON). -/
structure HttpResponse (α : Type) where
  ok : Bool
  status : Int
  body : α
  errorBody : Option ErrorBody

/-- `SwapiApi.request` (web/src/services/api.ts, lines 28-52): return
the parsed body on `ok`; otherwise build `errorData` from the response
body, falling back to `UnknownError` when the body does not parse, and
throw an `ApiError` with the response status and those fields. -/
def request {α : Type} (resp : HttpResponse α) : Except ApiError α :=
  if resp.ok then
    Except.ok resp.body
  else
    let errorData : ErrorBody :=
      match resp.errorBody with
      | some e => e
      | none =>
          { error := "UnknownError",
            message := "Request failed with status " ++ toString resp.status }
    Except.error
      { status := resp.status, errorType := errorData.error,
        message := errorData.message }

/-! ## PaginatedResponse (web/src/types) -/

/-- `PaginatedResponse<T>` from web/src/types: the record shape every
collection query returns. -/
structure PaginatedResponse (α : Type) where
  count : Int
  page : Int
  total_pages : Int
  next_page : Option Int
  previous_page : Option Int
  results : List α

/-- The declared field names of `PaginatedResponse<T>`, in declaration
order, transcribed from the interface in web/src/types. -/
def paginatedResponseFields : List String :=
  ["count", "page", "total_pages", "next_page", "previous_page", "results"]

/-! ## Pagination component (web/src/components/Pagination.tsx) -/

/-- An element of the `pages` array the component builds: a page number
or the literal `'ellipsis'`. -/
inductive PageItem where
  | page (n : Int)
  | ellipsis
deriving DecidableEq

/-- The integers `lo, lo+1, ..., hi` (empty when `hi < lo`): the index
sequence of the JS loop `for (let i = lo; i <= hi; i++)`. -/
def intRange (lo hi : Int) : List Int :=
  (List.range (hi + 1 - lo).toNat).map (fun k : Nat => lo + (k : Int))

/-- The loop body of Pagination.tsx lines 25-29: push each index as a
page item unless `pages.includes(i)` already holds. -/
def pushLoop (pages : List PageItem) : List Int → List PageItem
  | [] => pages
  | i :: is =>
      pushLoop
        (if PageItem.page i ∈ pages then pages else pages ++ [PageItem.page i])
        is

/-- Pagination.tsx lines 16-22: `pages` starts as `[1]`, and a leading
ellipsis is pushed when the current page is far from the start. -/
def pagesAfterLeading (currentPage : Int) : List PageItem :=
  if currentPage > 3 then [PageItem.page 1, PageItem.ellipsis]
  else [PageItem.page 1]

/-- Pagination.tsx lines 25-29: push each page of the window
`max(2, currentPage-1) .. min(totalPages-1, currentPage+1)` unless
already present. -/
def pagesAfterWindow (currentPage totalPages : Int) : List PageItem :=
  pushLoop (pagesAfterLeading currentPage)
    (intRange (max 2 (currentPage - 1)) (min (totalPages - 1) (currentPage + 1)))

/-- Pagination.tsx lines 32-34: push a trailing ellipsis when the
current page is far from the end. -/
def pagesAfterTrailing (currentPage totalPages : Int) : List PageItem :=
  if currentPage < totalPages - 2 then
    pagesAfterWindow currentPage totalPages ++ [PageItem.ellipsis]
  else pagesAfterWindow currentPage totalPages

/-- The `pages` array built by the Pagination component
(Pagination.tsx lines 14-39): the stages above, then the last page is
pushed when `totalPages > 1` and it is not already present. -/
def paginationPages (currentPage totalPages : Int) : List PageItem :=
  if totalPages > 1 ∧
      PageItem.page totalPages ∉ pagesAfterTrailing currentPage totalPages then
    pagesAfterTrailing currentPage totalPages ++ [PageItem.page totalPages]
  else pagesAfterTrailing currentPage totalPages

/-- The numeric entries of a list of page items, in order. -/
def itemsToNums (items : List PageItem) : List Int :=
  items.filterMap fun item =>
    match item with
    | PageItem.page n => some n
    | PageItem.ellipsis => none

/-- The page numbers rendered as buttons, in render order. -/
def pageNums (currentPage totalPages : Int) : List Int :=
  itemsToNums (paginationPages currentPage totalPages)

/-- Every control the component renders, as
`(onPageChange argument, disabled flag)`: the previous-arrow
(disabled at page 1), one button per page number, and the next-arrow
(disabled at the last page).  Page buttons are never disabled. -/
def paginationControls (currentPage totalPages : Int) : List (Int × Bool) :=
  (currentPage - 1, decide (currentPage = 1)) ::
    ((pageNums currentPage totalPages).map (fun p => (p, false)) ++
      [(currentPage + 1, decide (currentPage = totalPages))])

/-! ## Cache

Modelled from the spec: the backend Cache component
(sections 3 and 4.1) is not among the shipped sources.  A cache is an
association list of entries carrying the stored value, the store time
and the TTL; `set` overwrites unconditionally; `get` checks the TTL
lazily and reports absence both for missing and for expired keys. -/

structure CacheEntry (V : Type) where
  value : V
  storedAt : Nat
  ttl : Nat
deriving DecidableEq

/-- Modelled from the spec: the TTL-keyed in-memory store (section 4.1). -/
def Cache (V : Type) : Type := List (String × CacheEntry V)

/-- Modelled from the spec: `set(key, value, ttl)` at time `now`
overwrites unconditionally, resetting the age clock (section 4.1). -/
def Cache.set {V : Type} (c : Cache V) (key : String) (value : V)
    (ttl now : Nat) : Cache V :=
  (key, { value := value, storedAt := now, ttl := ttl }) ::
    List.filter (fun e => e.fst ≠ key) c

/-- Modelled from the spec: `get(key)` at time `now` returns the stored
value while `now - storedAt < ttl`, and absent otherwise — for missing
and expired keys alike (sections 3 and 4.1). -/
def Cache.get {V : Type} (c : Cache V) (key : String) (now : Nat) :
    Option V :=
  match List.find? (fun e => e.fst = key) c with
  | some (_, entry) =>
      if now - entry.storedAt < entry.ttl then some entry.value else none
  | none => none

/-! ## Retry policy

Modelled from the spec: the backend Retry Policy (section 4.3) is not
among the shipped sources.  Failures carry a classification; NotFound
and InvalidResponse are never retried, the others are retried up to the
configured maximum attempt count; exhaustion surfaces the last failure. -/

inductive FailureClass where
  | notFound
  | rateLimited
  | timeout
  | transient
  | invalidResponse
deriving DecidableEq

/-- Modelled from the spec: which failure classifications are retried
(section 4.3). -/
def FailureClass.retryable : FailureClass → Bool
  | .rateLimited => true
  | .timeout => true
  | .transient => true
  | .notFound => false
  | .invalidResponse => false

/-- The outcome of a single upstream attempt. -/
inductive Outcome (α : Type) where
  | success (v : α)
  | failure (e : FailureClass)

/-- Modelled from the spec: the default maximum attempt count
(section 4.3, defaults: 3 attempts). -/
def defaultMaxAttempts : Nat := 3

/-- Modelled from the spec: the retry loop (section 4.3).  `call i` is
the outcome of attempt number `i` (0-based), `made` counts attempts
already made and the last argument is the remaining attempt budget.
Returns the total number of attempts made and the final result; on a
non-retryable failure or an exhausted budget the last classified
failure is surfaced.  The zero-budget base case is unreachable from
`runWithRetry` with a positive maximum. -/
def retryGo {α : Type} (call : Nat → Outcome α) (made : Nat) :
    Nat → Nat × Except FailureClass α
  | 0 => (made, Except.error FailureClass.timeout)
  | fuel + 1 =>
      match call made with
      | Outcome.success v => (made + 1, Except.ok v)
      | Outcome.failure e =>
          if e.retryable ∧ fuel ≠ 0 then retryGo call (made + 1) fuel
          else (made + 1, Except.error e)

/-- Modelled from the spec: run an upstream call under the retry policy
with at most `maxAttempts` attempts (section 4.3). -/
def runWithRetry {α : Type} (call : Nat → Outcome α) (maxAttempts : Nat) :
    Nat × Except FailureClass α :=
  retryGo call 0 maxAttempts

/-! ## Correlation resolver

Modelled from the spec: the backend Correlation Resolver (section 4.5)
is not among the shipped sources.  Each reference fetches to a
per-reference result (success / absent / error); the resolver collects
them in input order, drops NotFound references silently and propagates
the first non-absence failure, failing the whole resolution. -/

/-- The per-reference fetch result (spec section 9, design note on
partial-failure tolerance: a success/absent/error result type). -/
inductive FetchOutcome (α : Type) where
  | resolved (record : α)
  | notFound
  | failed (e : FailureClass)

/-- Whether a fetch outcome is a non-absence failure. -/
def FetchOutcome.isFailed {α : Type} : FetchOutcome α → Bool
  | .failed _ => true
  | _ => false

/-- Modelled from the spec: `resolve(references)` (section 4.5) over an
abstract gateway `fetch`: output preserves input reference order,
NotFound references are dropped, any other failure fails the entire
resolution with no partial result. -/
def resolve {ρ α : Type} (fetch : ρ → FetchOutcome α) :
    List ρ → Except FailureClass (List α)
  | [] => Except.ok []
  | r :: rs =>
      match fetch r with
      | FetchOutcome.failed e => Except.error e
      | FetchOutcome.notFound => resolve fetch rs
      | FetchOutcome.resolved v =>
          match resolve fetch rs with
          | Except.ok vs => Except.ok (v :: vs)
          | Except.error e => Except.error e

/-- The records of the non-NotFound references, in input order: what a
successful resolution must return. -/
def resolvedRecords {ρ α : Type} (fetch : ρ → FetchOutcome α)
    (refs : List ρ) : List α :=
  refs.filterMap fun r =>
    match fetch r with
    | FetchOutcome.resolved v => some v
    | _ => none

/-! ## Query engine pagination

Modelled from the spec: the backend Query Engine (section 4.6) is not
among the shipped sources.  Fixed page size 10; page values below 1 are
clamped to 1; a page beyond the last yields an empty result set while
`count` and `totalPages` still describe the full filtered set. -/

/-- Modelled from the spec: the fixed page size (section 4.6, default 10). -/
def pageSize : Nat := 10

/-- The `{ results, count, page, totalPages }` record a query returns. -/
structure QueryResult (α : Type) where
  results : List α
  count : Nat
  page : Nat
  totalPages : Nat
deriving DecidableEq

/-- `ceil(n / pageSize)`: the number of pages of a collection of size `n`. -/
def totalPagesOf (n : Nat) : Nat :=
  (n + pageSize - 1) / pageSize

/-- Modelled from the spec: pagination over the fully filtered and
sorted collection (section 4.6).  The requested page is clamped below
to 1; page `p` holds items `(p-1)*pageSize .. p*pageSize - 1`. -/
def paginate {α : Type} (items : List α) (page : Int) : QueryResult α :=
  let p : Nat := (max page 1).toNat
  { results := (items.drop ((p - 1) * pageSize)).take pageSize,
    count := items.length,
    page := p,
    totalPages := totalPagesOf items.length }

/-! ## Query engine numeric sort

Modelled from the spec: sorting on a numeric-in-nature text field
(section 4.6) compares field values as numbers, not lexicographically. -/

/-- A record with a numeric-in-nature text field, e.g. a character with
its height stored as text. -/
structure PersonRecord where
  name : String
  height : String
deriving DecidableEq

/-- Modelled from the spec: the numeric value of a numeric-looking text
field (decimal digits parsed as a number). -/
def numValue (s : String) : Nat :=
  s.data.foldl (fun acc c => acc * 10 + (c.toNat - 48)) 0

/-- Numeric ascending comparison on the height field. -/
def heightLe (a b : PersonRecord) : Bool :=
  numValue a.height ≤ numValue b.height

/-- Insert a record into a list sorted ascending by numeric height. -/
def insertByHeight (x : PersonRecord) : List PersonRecord → List PersonRecord
  | [] => [x]
  | y :: ys => if heightLe x y then x :: y :: ys else y :: insertByHeight x ys

/-- Modelled from the spec: ascending sort of records on the numeric
text field (section 4.6). -/
def sortByHeightAsc : List PersonRecord → List PersonRecord
  | [] => []
  | x :: xs => insertByHeight x (sortByHeightAsc xs)

/-! ## Concrete fixtures used by witness theorems -/

/-- A concrete `SearchParams` with a set page and search and everything
else unset. -/
def sampleParams : SearchParams :=
  { page := some 2, search := some "sky" }

/-- A concrete failed HTTP response whose body does not parse as JSON. -/
def sampleErrorResponse : HttpResponse Nat :=
  { ok := false, status := 503, body := 0, errorBody := none }

/-- A concrete gateway where reference 2 is NotFound and every other
reference resolves. -/
def fetchDropNotFound : Nat → FetchOutcome Nat := fun r =>
  if r = 2 then FetchOutcome.notFound else FetchOutcome.resolved (10 * r)

/-- A concrete gateway where reference 2 exhausts its retries on
Timeout and every other reference resolves. -/
def fetchFailTimeout : Nat → FetchOutcome Nat := fun r =>
  if r = 2 then FetchOutcome.failed FailureClass.timeout
  else FetchOutcome.resolved (10 * r)

/-- An upstream call that fails as NotFound on every attempt. -/
def callAlwaysNotFound : Nat → Outcome Nat := fun _ =>
  Outcome.failure FailureClass.notFound

/-- An upstream call that times out on every attempt. -/
def callAlwaysTimeout : Nat → Outcome Nat := fun _ =>
  Outcome.failure FailureClass.timeout

end StarWars

namespace StarWars

/-! ## Theorems -/

/-- C2: for every cache key and value, `set(k, v, ttl)` at time `t0`
followed by `get(k)` at time `t0 + d` returns exactly `v` when
`d < ttl`, and absent when `ttl ≤ d`, regardless of the prior cache
contents. -/
theorem cache_set_get_ttl {V : Type} (c : Cache V) (k : String) (v : V)
    (ttl t0 d : Nat) :
    (d < ttl → Cache.get (Cache.set c k v ttl t0) k (t0 + d) = some v) ∧
    (ttl ≤ d → Cache.get (Cache.set c k v ttl t0) k (t0 + d) = none) := by
  have hfind :
      List.find? (fun e => e.fst = k)
        ((k, ({ value := v, storedAt := t0, ttl := ttl } : CacheEntry V)) ::
          List.filter (fun e => e.fst ≠ k) c) =
        some (k, { value := v, storedAt := t0, ttl := ttl }) :=
    List.find?_cons_of_pos _ (by simp)
  constructor <;> intro h <;>
    simp [Cache.set, Cache.get, hfind, Nat.add_sub_cancel_left, h]

theorem cache_set_get_ttl_witness :
    Cache.get (Cache.set ([] : Cache Nat) "planets-1" 7 300 100)
        "planets-1" 399 = some 7 ∧
    Cache.get (Cache.set ([] : Cache Nat) "planets-1" 7 300 100)
        "planets-1" 400 = none :=
  ⟨(cache_set_get_ttl [] "planets-1" 7 300 100 299).1 (by decide),
   (cache_set_get_ttl [] "planets-1" 7 300 100 300).2 (by decide)⟩

/-- Helper: one-step unfolding of the retry loop at positive budget. -/
theorem retryGo_succ {α : Type} (call : Nat → Outcome α) (made fuel : Nat) :
    retryGo call made (fuel + 1) =
      match call made with
      | Outcome.success v => (made + 1, Except.ok v)
      | Outcome.failure e =>
          if e.retryable ∧ fuel ≠ 0 then retryGo call (made + 1) fuel
          else (made + 1, Except.error e) := rfl

/-- Helper: when every attempt times out, the retry loop consumes the
whole budget and surfaces the last Timeout failure. -/
theorem retryGo_all_timeout {α : Type} (call : Nat → Outcome α) :
    ∀ fuel made, 0 < fuel →
      (∀ i, i < fuel → call (made + i) = Outcome.failure FailureClass.timeout) →
      retryGo call made fuel = (made + fuel, Except.error FailureClass.timeout)
  | 0, _, hfuel, _ => absurd hfuel (by omega)
  | fuel + 1, made, _, hcall => by
      have h0 := hcall 0 (by omega)
      rw [Nat.add_zero] at h0
      rcases Nat.eq_zero_or_pos fuel with rfl | hf
      · simp [retryGo_succ, h0]
      · have ih := retryGo_all_timeout call fuel (made + 1) hf
          (fun i hi => by
            have h1 := hcall (i + 1) (by omega)
            have h2 : made + (i + 1) = made + 1 + i := by omega
            rw [h2] at h1
            exact h1)
        simp only [retryGo_succ, h0, FailureClass.retryable]
        rw [if_pos (And.intro trivial (by omega)), ih, Prod.mk.injEq]
        exact ⟨by omega, rfl⟩

/-- C4: a NotFound failure is attempted exactly once and surfaced
immediately; a call that times out on every attempt is attempted
exactly `maxAttempts` times (default 3) and the last Timeout failure is
surfaced to the caller rather than swallowed. -/
theorem retry_policy_spec {α : Type} (call : Nat → Outcome α)
    (maxAttempts : Nat) (hmax : 0 < maxAttempts) :
    (call 0 = Outcome.failure FailureClass.notFound →
      runWithRetry call maxAttempts =
        (1, Except.error FailureClass.notFound)) ∧
    ((∀ i, i < maxAttempts → call i = Outcome.failure FailureClass.timeout) →
      runWithRetry call maxAttempts =
        (maxAttempts, Except.error FailureClass.timeout)) ∧
    defaultMaxAttempts = 3 := by
  refine ⟨?_, ?_, rfl⟩
  · intro hnf
    obtain ⟨m, rfl⟩ : ∃ m, maxAttempts = m + 1 :=
      ⟨maxAttempts - 1, by omega⟩
    simp [runWithRetry, retryGo, hnf, FailureClass.retryable]
  · intro htimeout
    have := retryGo_all_timeout call maxAttempts 0 hmax
      (fun i hi => by simpa using htimeout i hi)
    simpa [runWithRetry] using this

theorem retry_policy_spec_witness :
    runWithRetry callAlwaysNotFound 3 =
      (1, Except.error FailureClass.notFound) ∧
    runWithRetry callAlwaysTimeout 3 =
      (3, Except.error FailureClass.timeout) :=
  ⟨(retry_policy_spec callAlwaysNotFound 3 (by decide)).1 rfl,
   (retry_policy_spec callAlwaysTimeout 3 (by decide)).2.1 (fun _ _ => rfl)⟩

/-- Helper: a NotFound head reference contributes no record. -/
theorem resolvedRecords_cons_notFound {ρ α : Type}
    {fetch : ρ → FetchOutcome α} {r : ρ} {rs : List ρ}
    (hfr : fetch r = FetchOutcome.notFound) :
    resolvedRecords fetch (r :: rs) = resolvedRecords fetch rs := by
  simp [resolvedRecords, hfr]

/-- Helper: a resolved head reference contributes its record first. -/
theorem resolvedRecords_cons_resolved {ρ α : Type}
    {fetch : ρ → FetchOutcome α} {r : ρ} {rs : List ρ} {v : α}
    (hfr : fetch r = FetchOutcome.resolved v) :
    resolvedRecords fetch (r :: rs) = v :: resolvedRecords fetch rs := by
  simp [resolvedRecords, hfr]

/-- C1: when no reference fails with a non-NotFound classification, the
resolver returns exactly the records of the non-NotFound references in
input order (NotFound references are silently dropped); when some
reference fails with a non-NotFound classification, the whole
resolution fails with an error and no partial result. -/
theorem resolve_spec {ρ α : Type} (fetch : ρ → FetchOutcome α)
    (refs : List ρ) :
    ((∀ r ∈ refs, (fetch r).isFailed = false) →
      resolve fetch refs = Except.ok (resolvedRecords fetch refs)) ∧
    ((∃ r ∈ refs, (fetch r).isFailed = true) →
      ∃ e, resolve fetch refs = Except.error e) := by
  induction refs with
  | nil =>
      refine ⟨fun _ => rfl, ?_⟩
      rintro ⟨r, hr, -⟩
      exact absurd hr (List.not_mem_nil r)
  | cons r rs ih =>
      constructor
      · intro hok
        have hr := hok r (List.mem_cons_self r rs)
        have hrs := ih.1 (fun x hx => hok x (List.mem_cons_of_mem r hx))
        cases hfr : fetch r with
        | failed e => rw [hfr] at hr; simp [FetchOutcome.isFailed] at hr
        | notFound =>
            rw [resolvedRecords_cons_notFound hfr]
            simp [resolve, hfr, hrs]
        | resolved v =>
            rw [resolvedRecords_cons_resolved hfr]
            simp [resolve, hfr, hrs]
      · rintro ⟨x, hx, hfail⟩
        rcases List.mem_cons.mp hx with rfl | hx2
        · cases hfr : fetch x with
          | failed e => exact ⟨e, by simp [resolve, hfr]⟩
          | notFound => simp [FetchOutcome.isFailed, hfr] at hfail
          | resolved v => simp [FetchOutcome.isFailed, hfr] at hfail
        · cases hfr : fetch r with
          | failed e => exact ⟨e, by simp [resolve, hfr]⟩
          | notFound =>
              obtain ⟨e, he⟩ := ih.2 ⟨x, hx2, hfail⟩
              exact ⟨e, by simp [resolve, hfr, he]⟩
          | resolved v =>
              obtain ⟨e, he⟩ := ih.2 ⟨x, hx2, hfail⟩
              exact ⟨e, by simp [resolve, hfr, he]⟩

theorem resolve_spec_witness :
    resolve fetchDropNotFound [1, 2, 3] = Except.ok [10, 30] ∧
    ∃ e, resolve fetchFailTimeout [1, 2] = Except.error e :=
  ⟨((resolve_spec fetchDropNotFound [1, 2, 3]).1 (by decide)).trans (by rfl),
   (resolve_spec fetchFailTimeout [1, 2]).2 ⟨2, by decide, by decide⟩⟩

/-- C5: for every pair of records whose sort field holds numeric-looking
text, ascending sort orders them by numeric value: the record with the
smaller numeric field value comes first, whichever order they arrive in. -/
theorem numeric_sort_pair (a b : PersonRecord)
    (h : numValue a.height < numValue b.height) :
    sortByHeightAsc [a, b] = [a, b] ∧ sortByHeightAsc [b, a] = [a, b] := by
  have hab : heightLe a b = true := by
    simp only [heightLe, decide_eq_true_eq]; omega
  have hba : heightLe b a = false := by
    simp only [heightLe, decide_eq_false_iff_not]; omega
  constructor <;> simp [sortByHeightAsc, insertByHeight, hab, hba]

theorem numeric_sort_pair_witness :
    sortByHeightAsc [⟨"Shmi Skywalker", "172"⟩, ⟨"Yoda", "96"⟩] =
      [⟨"Yoda", "96"⟩, ⟨"Shmi Skywalker", "172"⟩] :=
  (numeric_sort_pair ⟨"Yoda", "96"⟩ ⟨"Shmi Skywalker", "172"⟩ (by decide)).2

/-- C3 fails on the empty collection: with `N = 0`, `N` is an exact
multiple of the page size, so the claim demands that page `ceil(N/P)`
(clamped to page 1) return `P` items — but an empty collection yields
zero items. -/
theorem paginate_claim_counterexample :
    ([] : List Nat).length % pageSize = 0 ∧
    (paginate ([] : List Nat)
        ((totalPagesOf ([] : List Nat).length : Nat) : Int)).results.length ≠
      pageSize := by decide

/-- C3 amended: for every nonempty filtered/sorted collection, the last
page `ceil(N/P)` holds the remainder items (`N mod P`, or `P` when `N`
is an exact multiple), page `ceil(N/P) + 1` is empty while `count` and
`totalPages` still reflect the full set, and every page value below 1
is clamped to page 1. -/
theorem paginate_spec {α : Type} (items : List α) (hN : 0 < items.length) :
    ((paginate items ((totalPagesOf items.length : Nat) : Int)).results.length =
      if items.length % pageSize = 0 then pageSize
      else items.length % pageSize) ∧
    (paginate items (((totalPagesOf items.length : Nat) : Int) + 1)).results = [] ∧
    (paginate items (((totalPagesOf items.length : Nat) : Int) + 1)).count =
      items.length ∧
    (paginate items (((totalPagesOf items.length : Nat) : Int) + 1)).totalPages =
      totalPagesOf items.length ∧
    (∀ p : Int, p < 1 → paginate items p = paginate items 1) := by
  have ht : 1 ≤ totalPagesOf items.length := by
    unfold totalPagesOf pageSize
    omega
  refine ⟨?_, ?_, rfl, rfl, ?_⟩
  · have hp : ((max ((totalPagesOf items.length : Nat) : Int) 1).toNat) =
        totalPagesOf items.length := by omega
    simp only [paginate, hp, List.length_take, List.length_drop]
    unfold totalPagesOf pageSize
    unfold totalPagesOf pageSize at ht
    split <;> omega
  · have hp : ((max (((totalPagesOf items.length : Nat) : Int) + 1) 1).toNat) =
        totalPagesOf items.length + 1 := by omega
    simp only [paginate, hp]
    have hdrop : items.length ≤ (totalPagesOf items.length + 1 - 1) * pageSize := by
      unfold totalPagesOf pageSize
      omega
    rw [List.drop_eq_nil_of_le hdrop]
    rfl
  · intro p hp
    have h1 : (max p 1).toNat = 1 := by omega
    have h2 : (max (1 : Int) 1).toNat = 1 := by omega
    simp only [paginate, h1, h2]

theorem paginate_spec_witness :
    (paginate (List.range 25)
        ((totalPagesOf (List.range 25).length : Nat) : Int)).results.length =
      if (List.range 25).length % pageSize = 0 then pageSize
      else (List.range 25).length % pageSize :=
  (paginate_spec (List.range 25) (by decide)).1

/-- C7 fails as stated: the declared response record carries the
pagination-link field `next_page` (and `previous_page`), which is not
among the four claimed fields. -/
theorem paginatedResponse_counterexample :
    "next_page" ∈ paginatedResponseFields ∧
    "next_page" ∉ ["results", "count", "page", "total_pages"] := by decide

/-- C7 amended: every collection query returns a record containing
exactly the fields `results`, `count`, `page`, `total_pages`,
`next_page` and `previous_page` — the four claimed paginated-result
fields plus the two pagination-link fields. -/
theorem paginatedResponse_fields_spec :
    (∀ k, k ∈ paginatedResponseFields ↔
      k ∈ ["results", "count", "page", "total_pages",
           "next_page", "previous_page"]) ∧
    paginatedResponseFields.Nodup := by
  constructor
  · intro k
    simp only [paginatedResponseFields, List.mem_cons, List.not_mem_nil,
      or_false]
    tauto
  · decide

/-- C9: `SwapiApi.request` returns the parsed JSON body exactly when
the response is `ok`; otherwise it throws an `ApiError` carrying the
response status and the `error` and `message` fields of the response
body, falling back to errorType `UnknownError` and message
`Request failed with status {status}` when the error body does not
parse as JSON. -/
theorem request_spec {α : Type} (resp : HttpResponse α) :
    ((∃ v, request resp = Except.ok v) ↔ resp.ok = true) ∧
    (resp.ok = true → request resp = Except.ok resp.body) ∧
    (∀ e, resp.ok = false → resp.errorBody = some e →
      request resp = Except.error
        { status := resp.status, errorType := e.error,
          message := e.message }) ∧
    (resp.ok = false → resp.errorBody = none →
      request resp = Except.error
        { status := resp.status, errorType := "UnknownError",
          message := "Request failed with status " ++
            toString resp.status }) := by
  by_cases hok : resp.ok
  · refine ⟨⟨fun _ => hok, fun _ => ⟨resp.body, by simp [request, hok]⟩⟩,
      fun _ => by simp [request, hok], ?_, ?_⟩
    · intro e h
      rw [hok] at h
      exact absurd h (by simp)
    · intro h
      rw [hok] at h
      exact absurd h (by simp)
  · refine ⟨⟨?_, fun h => absurd h hok⟩, fun h => absurd h hok, ?_, ?_⟩
    · rintro ⟨v, hv⟩
      cases hb : resp.errorBody <;> simp [request, hok, hb] at hv
    · intro e _ hb
      simp [request, hok, hb]
    · intro _ hb
      simp [request, hok, hb]

theorem request_spec_witness :
    request sampleErrorResponse = Except.error
      { status := sampleErrorResponse.status, errorType := "UnknownError",
        message := "Request failed with status " ++
          toString sampleErrorResponse.status } :=
  (request_spec sampleErrorResponse).2.2.2 rfl rfl

/-- Helper: the names contributed by one conditional string-field
`query.set` call. -/
theorem mem_map_fst_qsetStr {k name : String} {v : Option String} :
    k ∈ (qsetStr name v).map Prod.fst ↔ (k = name ∧ truthyStr v = true) := by
  rcases v with _ | s
  · simp [qsetStr, truthyStr]
  · by_cases hs : s = "" <;> simp [qsetStr, truthyStr, hs]

/-- Helper: the names contributed by one conditional number-field
`query.set` call. -/
theorem mem_map_fst_qsetNum {k name : String} {v : Option Int} :
    k ∈ (qsetNum name v).map Prod.fst ↔ (k = name ∧ truthyNum v = true) := by
  rcases v with _ | n
  · simp [qsetNum, truthyNum]
  · by_cases hn : n = 0 <;> simp [qsetNum, truthyNum, hn]

/-- C6: for every `SearchParams` whose page, when present, is a
positive integer, `buildQueryString` emits only recognized query
configuration option names; each option appears exactly when its field
is set (present and truthy — the page hypothesis makes presence and
truthiness coincide for `page`); and the list pages initialize
`order` to `asc` with an entity-specific default sort field. -/
theorem buildQueryString_options (p : SearchParams)
    (hp : ∀ n, p.page = some n → 0 < n) :
    (∀ k ∈ emittedNames p, k ∈ recognizedParamNames) ∧
    ("page" ∈ emittedNames p ↔ p.page.isSome = true) ∧
    ("search" ∈ emittedNames p ↔ truthyStr p.search = true) ∧
    ("sort_by" ∈ emittedNames p ↔ truthyStr p.sort_by = true) ∧
    ("order" ∈ emittedNames p ↔ truthyStr p.order = true) ∧
    ("gender" ∈ emittedNames p ↔ truthyStr p.gender = true) ∧
    ("eye_color" ∈ emittedNames p ↔ truthyStr p.eye_color = true) ∧
    ("hair_color" ∈ emittedNames p ↔ truthyStr p.hair_color = true) ∧
    ("skin_color" ∈ emittedNames p ↔ truthyStr p.skin_color = true) ∧
    ("film_id" ∈ emittedNames p ↔ truthyNum p.film_id = true) ∧
    ("climate" ∈ emittedNames p ↔ truthyStr p.climate = true) ∧
    ("terrain" ∈ emittedNames p ↔ truthyStr p.terrain = true) ∧
    ("starship_class" ∈ emittedNames p ↔ truthyStr p.starship_class = true) ∧
    ("manufacturer" ∈ emittedNames p ↔ truthyStr p.manufacturer = true) ∧
    ("director" ∈ emittedNames p ↔ truthyStr p.director = true) ∧
    ("producer" ∈ emittedNames p ↔ truthyStr p.producer = true) ∧
    charactersInitialParams.order = some "asc" ∧
    charactersInitialParams.sort_by = some "name" ∧
    filmsInitialParams.order = some "asc" ∧
    filmsInitialParams.sort_by = some "episode_id" ∧
    starshipsInitialParams.order = some "asc" ∧
    starshipsInitialParams.sort_by = some "name" := by
  constructor
  · intro k hk
    simp only [emittedNames, buildQueryString, List.map_append,
      List.mem_append, mem_map_fst_qsetStr, mem_map_fst_qsetNum] at hk
    simp only [recognizedParamNames, List.mem_cons, List.not_mem_nil,
      or_false]
    tauto
  constructor
  · have hpage : truthyNum p.page = true ↔ p.page.isSome = true := by
      rcases hpp : p.page with _ | n
      · simp [truthyNum]
      · have hn := hp n hpp
        simp [truthyNum]
        omega
    rw [← hpage]
    simp only [emittedNames, buildQueryString, List.map_append,
      List.mem_append, mem_map_fst_qsetStr, mem_map_fst_qsetNum]
    simp
  refine ⟨?_, ?_, ?_, ?_, ?_, ?_, ?_, ?_, ?_, ?_, ?_, ?_, ?_, ?_,
    rfl, rfl, rfl, rfl, rfl, rfl⟩ <;>
  · simp only [emittedNames, buildQueryString, List.map_append,
      List.mem_append, mem_map_fst_qsetStr, mem_map_fst_qsetNum]
    simp

theorem buildQueryString_options_witness :
    "page" ∈ emittedNames sampleParams ↔ sampleParams.page.isSome = true :=
  (buildQueryString_options sampleParams
    (by intro n h; injection h with h2; omega)).2.1

/-- C10: on the Characters page, `handleSearch(q)` sets `search := q`
and `page := 1` and leaves every other field unchanged (restoring those
two fields recovers the previous state exactly);
`handleFilterChange(field, value)` sets `page := 1` and updates only
the named filter field — to the value, or cleared when the value is
empty — leaving every other field unchanged; `handlePageChange` changes
only the `page` field. -/
theorem characters_handlers_frame (prev : SearchParams) (q : String)
    (f : FilterField) (v : String) (pg : Int) :
    { handleSearch q prev with
        search := prev.search, page := prev.page } = prev ∧
    (handleSearch q prev).search = some q ∧
    (handleSearch q prev).page = some 1 ∧
    copyFilterField f prev
      { handleFilterChange f v prev with page := prev.page } = prev ∧
    (handleFilterChange f v prev).page = some 1 ∧
    filterFieldVal f (handleFilterChange f v prev) = filterFieldUpdated f v ∧
    { handlePageChange pg prev with page := prev.page } = prev ∧
    (handlePageChange pg prev).page = some pg := by
  cases f <;>
    simp [handleSearch, handleFilterChange, handlePageChange,
      copyFilterField, filterFieldVal, filterFieldUpdated]

/-- Helper: membership in the integer window. -/
theorem mem_intRange {k lo hi : Int} :
    k ∈ intRange lo hi ↔ lo ≤ k ∧ k ≤ hi := by
  simp only [intRange, List.mem_map, List.mem_range]
  constructor
  · rintro ⟨m, hm, rfl⟩
    omega
  · rintro ⟨ha, hb⟩
    exact ⟨(k - lo).toNat, by omega, by omega⟩

/-- Helper: the integer window is strictly increasing. -/
theorem pairwise_intRange {lo hi : Int} :
    (intRange lo hi).Pairwise (fun a b => a < b) := by
  unfold intRange
  exact List.Pairwise.map _ (fun a b h => by omega)
    (List.pairwise_lt_range _)

/-- Helper: pushing fresh, duplicate-free indices appends them all. -/
theorem pushLoop_fresh :
    ∀ (is : List Int) (pages : List PageItem), is.Nodup →
      (∀ i ∈ is, PageItem.page i ∉ pages) →
      pushLoop pages is = pages ++ is.map PageItem.page
  | [], pages, _, _ => by simp [pushLoop]
  | i :: is, pages, hnd, hfresh => by
      have hni : PageItem.page i ∉ pages := hfresh i (List.mem_cons_self i is)
      have hhd := (List.nodup_cons.mp hnd).1
      have htl := (List.nodup_cons.mp hnd).2
      have hstep := pushLoop_fresh is (pages ++ [PageItem.page i]) htl
        (by
          intro j hj
          simp only [List.mem_append, List.mem_singleton]
          rintro (hjp | hjp)
          · exact hfresh j (List.mem_cons_of_mem i hj) hjp
          · have hji : j = i := by injection hjp
            exact hhd (hji ▸ hj))
      simp only [pushLoop, if_neg hni, hstep, List.map_cons,
        List.append_assoc, List.singleton_append]

/-- Helper: numeric entries distribute over list append. -/
theorem itemsToNums_append (a b : List PageItem) :
    itemsToNums (a ++ b) = itemsToNums a ++ itemsToNums b := by
  simp [itemsToNums]

/-- Helper: numeric entries of a pure page list are its numbers. -/
theorem itemsToNums_map_page (l : List Int) :
    itemsToNums (l.map PageItem.page) = l := by
  induction l with
  | nil => rfl
  | cons x xs ih => simpa [itemsToNums, List.filterMap_cons] using ih

/-- Helper: the leading stage contributes the single number 1. -/
theorem itemsToNums_leading (cp : Int) :
    itemsToNums (pagesAfterLeading cp) = [1] := by
  unfold pagesAfterLeading
  split <;> simp [itemsToNums]

/-- Helper: the window stage appends the whole window (every index is
at least 2, so none collides with the leading stage). -/
theorem pagesAfterWindow_eq (cp tp : Int) :
    pagesAfterWindow cp tp =
      pagesAfterLeading cp ++
        (intRange (max 2 (cp - 1)) (min (tp - 1) (cp + 1))).map
          PageItem.page := by
  apply pushLoop_fresh
  · exact pairwise_intRange.imp (fun h => ne_of_lt h)
  · intro i hi
    have hlo := (mem_intRange.mp hi).1
    unfold pagesAfterLeading
    split <;> simp <;> omega

/-- Helper: the trailing ellipsis does not change the numeric entries. -/
theorem itemsToNums_trailing (cp tp : Int) :
    itemsToNums (pagesAfterTrailing cp tp) =
      itemsToNums (pagesAfterWindow cp tp) := by
  unfold pagesAfterTrailing
  split <;> simp [itemsToNums_append, itemsToNums]

/-- Helper: for a valid current page on more than one page, the page
numbers are exactly 1, the window, and the last page. -/
theorem pageNums_eq (cp tp : Int) (h3 : 1 < tp) :
    pageNums cp tp =
      1 :: (intRange (max 2 (cp - 1)) (min (tp - 1) (cp + 1)) ++ [tp]) := by
  have hwin := pagesAfterWindow_eq cp tp
  have hwnot : PageItem.page tp ∉ pagesAfterWindow cp tp := by
    rw [hwin]
    intro hmem
    rcases List.mem_append.mp hmem with hA | hB
    · unfold pagesAfterLeading at hA
      split at hA <;> simp at hA <;> omega
    · obtain ⟨j, hj, hjp⟩ := List.mem_map.mp hB
      have hji : j = tp := by injection hjp
      have := (mem_intRange.mp hj).2
      omega
  have hnot : PageItem.page tp ∉ pagesAfterTrailing cp tp := by
    unfold pagesAfterTrailing
    split
    · intro h
      rcases List.mem_append.mp h with h | h
      · exact hwnot h
      · simp at h
    · exact hwnot
  unfold pageNums paginationPages
  rw [if_pos ⟨h3, hnot⟩, itemsToNums_append, itemsToNums_trailing, hwin,
    itemsToNums_append, itemsToNums_leading, itemsToNums_map_page]
  simp [itemsToNums]

/-- C8: for every current page within 1..totalPages and more than one
page, the rendered page-number list is strictly increasing, has no
duplicates, contains 1, the current page and the last page, and every
enabled control (previous, next, or a page button) invokes
`onPageChange` with an argument within 1..totalPages. -/
theorem pagination_component_invariants (cp tp : Int)
    (h1 : 1 ≤ cp) (h2 : cp ≤ tp) (h3 : 1 < tp) :
    (pageNums cp tp).Pairwise (fun a b => a < b) ∧
    (pageNums cp tp).Nodup ∧
    1 ∈ pageNums cp tp ∧ cp ∈ pageNums cp tp ∧ tp ∈ pageNums cp tp ∧
    (∀ c ∈ paginationControls cp tp, c.2 = false →
      1 ≤ c.1 ∧ c.1 ≤ tp) := by
  have heq := pageNums_eq cp tp h3
  have hpw : (pageNums cp tp).Pairwise (fun a b => a < b) := by
    rw [heq]
    refine List.pairwise_cons.mpr ⟨?_, ?_⟩
    · intro x hx
      rcases List.mem_append.mp hx with hx | hx
      · have := (mem_intRange.mp hx).1
        omega
      · simp at hx
        omega
    · refine List.pairwise_append.mpr ⟨pairwise_intRange, by simp, ?_⟩
      intro a ha b hb
      have := (mem_intRange.mp ha).2
      simp at hb
      omega
  have hbounds : ∀ x ∈ pageNums cp tp, 1 ≤ x ∧ x ≤ tp := by
    rw [heq]
    intro x hx
    rcases List.mem_cons.mp hx with rfl | hx
    · omega
    · rcases List.mem_append.mp hx with hx | hx
      · have ha := (mem_intRange.mp hx).1
        have hb := (mem_intRange.mp hx).2
        omega
      · simp at hx
        omega
  have hcp : cp ∈ pageNums cp tp := by
    rw [heq]
    rcases eq_or_ne cp 1 with rfl | hne1
    · simp
    · rcases eq_or_ne cp tp with rfl | hnetp
      · simp
      · have hmid : cp ∈ intRange (max 2 (cp - 1)) (min (tp - 1) (cp + 1)) :=
          mem_intRange.mpr ⟨by omega, by omega⟩
        simp [hmid]
  refine ⟨hpw, hpw.imp (fun h => ne_of_lt h), ?_, hcp, ?_, ?_⟩
  · rw [heq]
    simp
  · rw [heq]
    simp
  · intro c hc hen
    unfold paginationControls at hc
    rcases List.mem_cons.mp hc with rfl | hc
    · simp only [decide_eq_false_iff_not] at hen
      refine ⟨?_, ?_⟩ <;> simp <;> omega
    · rcases List.mem_append.mp hc with hc | hc
      · obtain ⟨p, hp, rfl⟩ := List.mem_map.mp hc
        simpa using hbounds p hp
      · simp only [List.mem_singleton] at hc
        subst hc
        simp only [decide_eq_false_iff_not] at hen
        refine ⟨?_, ?_⟩ <;> simp <;> omega

theorem pagination_component_invariants_witness :
    (5 : Int) ∈ pageNums 5 10 :=
  (pagination_component_invariants 5 10 (by decide) (by decide)
    (by decide)).2.2.2.1

end StarWars
